import Mathlib

/-!
Shallow embedding of the FineImgur caching relay (src/index.js) and proofs
about its specified behaviour.  JavaScript strings are modelled as Lean
`String`s, byte counts and sizes as `Nat`, the cache directory as a list of
named files, and the streaming ingestion handler as a function producing a
trace of filesystem/HTTP effects.  Numbers interpolated into the SVG template
are dyadic halves (the only divisions in the source are by 2), represented
exactly as an integer count of half-units.
-/

namespace FineImgur

/-! ### Configuration (src/index.js lines 9-32) -/

/-- A possibly-partial `failureImage` JSON object: each key may be absent,
as happens when `config.json` supplies only some of the sub-keys. -/
structure FailureImagePart where
  width : Option Nat
  height : Option Nat
  background : Option String
  textColor : Option String
  accentColor : Option String
  deriving Repr, DecidableEq

/-- A parsed `config.json` object: every top-level key may be absent. -/
structure ConfigPart where
  port : Option Nat
  imgurBaseUrl : Option String
  cacheDir : Option String
  maxCacheBytes : Option Nat
  maxDownloadBytes : Option Nat
  failureImage : Option FailureImagePart
  deriving Repr, DecidableEq

/-- The runtime configuration object.  After the top-level spread merge the
nested `failureImage` object is whatever object the merge produced, so its
sub-keys may be absent; hence it stays a `FailureImagePart`. -/
structure AppConfig where
  port : Nat
  imgurBaseUrl : String
  cacheDir : String
  maxCacheBytes : Nat
  maxDownloadBytes : Nat
  failureImage : FailureImagePart
  deriving Repr, DecidableEq

/-- `DEFAULT_CONFIG` from src/index.js lines 9-22. -/
def DEFAULT_CONFIG : AppConfig :=
  { port := 3000
    imgurBaseUrl := "https://i.imgur.com"
    cacheDir := "./cache"
    maxCacheBytes := 1024 * 1024 * 1024
    maxDownloadBytes := 10 * 1024 * 1024
    failureImage :=
      { width := some 640
        height := some 360
        background := some "#1d1d1d"
        textColor := some "#ffffff"
        accentColor := some "#ff4d4d" } }

/-- `loadConfig` from src/index.js lines 24-32.  The argument models the
combined outcome of `fs.readFileSync` + `JSON.parse`: `.error` when either
throws, `.ok` with the parsed object otherwise.  `\x7b...DEFAULT_CONFIG,
...JSON.parse(raw)\x7d` is a top-level shallow merge: a present key of the
parsed object replaces the default wholesale (nested objects included). -/
def loadConfig (readResult : Except String ConfigPart) : AppConfig :=
  match readResult with
  | .error _ => DEFAULT_CONFIG
  | .ok p =>
    { port := p.port.getD DEFAULT_CONFIG.port
      imgurBaseUrl := p.imgurBaseUrl.getD DEFAULT_CONFIG.imgurBaseUrl
      cacheDir := p.cacheDir.getD DEFAULT_CONFIG.cacheDir
      maxCacheBytes := p.maxCacheBytes.getD DEFAULT_CONFIG.maxCacheBytes
      maxDownloadBytes := p.maxDownloadBytes.getD DEFAULT_CONFIG.maxDownloadBytes
      failureImage := p.failureImage.getD DEFAULT_CONFIG.failureImage }

/-! ### Placeholder renderer (src/index.js lines 41-93) -/

/-- One global single-character `String.prototype.replace` pass, as in
`value.replace(/c/g, r)`: every occurrence of `c` becomes the string `r`. -/
def replaceAllChar (c : Char) (r : List Char) : List Char → List Char
  | [] => []
  | x :: xs => (if x = c then r else [x]) ++ replaceAllChar c r xs

/-- `escapeXml` from src/index.js lines 41-48: five chained global
replacements, ampersand first. -/
def escapeXml (value : String) : String :=
  let s1 := replaceAllChar '&' "&amp;".data value.data
  let s2 := replaceAllChar '<' "&lt;".data s1
  let s3 := replaceAllChar '>' "&gt;".data s2
  let s4 := replaceAllChar '"' "&quot;".data s3
  let s5 := replaceAllChar '\'' "&#39;".data s4
  String.mk s5

/-- Splitting on a single space, as `text.split(' ')` does in JavaScript:
the empty string yields `[""]` and consecutive spaces yield empty words. -/
def splitOnSpaceAux : List Char → List Char → List (List Char)
  | [], cur => [cur.reverse]
  | c :: cs, cur =>
    if c = ' ' then cur.reverse :: splitOnSpaceAux cs []
    else splitOnSpaceAux cs (c :: cur)

/-- Entry point of the space splitter. -/
def splitOnSpace (s : List Char) : List (List Char) := splitOnSpaceAux s []

/-- `String.prototype.trim`: strip whitespace from both ends. -/
def jsTrim (s : List Char) : List Char :=
  ((s.dropWhile Char.isWhitespace).reverse.dropWhile Char.isWhitespace).reverse

/-- Loop body of `wrapText`: the accumulator is `(lines, line)`. -/
def wrapStep (maxLength : Nat) (acc : List (List Char) × List Char)
    (word : List Char) : List (List Char) × List Char :=
  if (acc.2 ++ word).length > maxLength then
    (acc.1 ++ [jsTrim acc.2], word ++ [' '])
  else
    (acc.1, acc.2 ++ word ++ [' '])

/-- `wrapText` from src/index.js lines 50-69.  The final
`if (line.trim())` is a non-empty-string truthiness test. -/
def wrapText (text : String) (maxLength : Nat) : List String :=
  let r := (splitOnSpace text.data).foldl (wrapStep maxLength) ([], [])
  (if jsTrim r.2 ≠ [] then r.1 ++ [jsTrim r.2] else r.1).map String.mk

/-- JavaScript rendering of a number held in half-units: `halfStr n` is the
string JS prints for the number `n / 2` (an integer prints with no decimal
point, otherwise the fractional part is exactly `.5`). -/
def halfStr (n : Int) : String :=
  if n % 2 = 0 then toString (n / 2)
  else (if n < 0 then "-" else "") ++ toString (n.natAbs / 2) ++ ".5"

/-- One `<text>` span produced by the `.map` in src/index.js lines 77-82.
`x` is `width / 2` (so `width` half-units) and `y` is `startY + index *
lineHeight` with `lineHeight = 26` (so 52 half-units per line). -/
def textSpan (width : Nat) (startY2 : Int) (index : Nat) (line : String) :
    String :=
  "<text x=\"" ++ halfStr (width : Int) ++ "\" y=\""
    ++ halfStr (startY2 + 52 * (index : Int)) ++ "\" text-anchor=\"middle\">"
    ++ line ++ "</text>"

/-- The `startY` of src/index.js line 76 in half-units:
`height / 2 - (lines.length * 26) / 2`. -/
def startYHalf (height : Nat) (lineCount : Nat) : Int :=
  (height : Int) - 26 * (lineCount : Int)

/-- The joined `textSpans` string of src/index.js lines 77-82. -/
def renderSpans (width : Nat) (height : Nat) (lines : List String) : String :=
  String.join ((lines.enum).map fun p =>
    textSpan width (startYHalf height lines.length) p.1 p.2)

/-- The fixed part of the SVG template before the text spans
(src/index.js lines 84-90 up to the `$\x7btextSpans\x7d` hole). -/
def svgHead (width height : Nat) (background accentColor textColor : String) :
    String :=
  "<?xml version=\"1.0\" encoding=\"UTF-8\"?>\n"
    ++ "<svg xmlns=\"http://www.w3.org/2000/svg\" width=\"" ++ toString width
    ++ "\" height=\"" ++ toString height ++ "\">\n"
    ++ "  <rect width=\"100%\" height=\"100%\" fill=\"" ++ background
    ++ "\" />\n"
    ++ "  <rect x=\"20\" y=\"20\" width=\"" ++ toString ((width : Int) - 40)
    ++ "\" height=\"" ++ toString ((height : Int) - 40)
    ++ "\" rx=\"24\" fill=\"#2a2a2a\" stroke=\"" ++ accentColor
    ++ "\" stroke-width=\"3\" />\n"
    ++ "  <text x=\"" ++ halfStr (width : Int) ++ "\" y=\""
    ++ halfStr ((height : Int) - 120)
    ++ "\" text-anchor=\"middle\" fill=\"" ++ accentColor
    ++ "\" font-family=\"Arial, sans-serif\" font-size=\"26\""
    ++ " font-weight=\"bold\">FineImgur</text>\n"
    ++ "  <g fill=\"" ++ textColor
    ++ "\" font-family=\"Arial, sans-serif\" font-size=\"18\">\n    "

/-- The fixed part of the SVG template after the text spans. -/
def svgTail : String := "\n  </g>\n</svg>"

/-- A fully-populated failure-image configuration, as the renderer reads it
(the destructuring on src/index.js line 72). -/
structure FailureImage where
  width : Nat
  height : Nat
  background : String
  textColor : String
  accentColor : String
  deriving Repr, DecidableEq

/-- The `failureImage` object of `DEFAULT_CONFIG`, fully populated. -/
def defaultFailureImage : FailureImage :=
  { width := 640, height := 360, background := "#1d1d1d"
    textColor := "#ffffff", accentColor := "#ff4d4d" }

/-- `renderFailureSvg` from src/index.js lines 71-93. -/
def renderFailureSvg (cfg : FailureImage) (reason : String) : String :=
  let safeReason := escapeXml reason
  let lines := wrapText safeReason 42
  svgHead cfg.width cfg.height cfg.background cfg.accentColor cfg.textColor
    ++ renderSpans cfg.width cfg.height lines
    ++ svgTail

/-- A modelled HTTP response: status, the headers the code sets, body. -/
structure HttpResponse where
  status : Nat
  contentType : String
  cacheControl : String
  contentLength : Nat
  body : String
  deriving Repr, DecidableEq

/-- The default value of `sendFailure`'s `statusCode` parameter
(src/index.js line 95); call sites that omit the argument use it. -/
def defaultFailureStatus : Nat := 413

/-- `sendFailure` from src/index.js lines 95-103. -/
def sendFailure (cfg : FailureImage) (reason : String) (statusCode : Nat) :
    HttpResponse :=
  let svg := renderFailureSvg cfg reason
  { status := statusCode
    contentType := "image/svg+xml; charset=utf-8"
    cacheControl := "no-store"
    contentLength := svg.utf8ByteSize
    body := svg }

/-! ### Cache directory and eviction (src/index.js lines 128-160) -/

/-- One file of the cache directory, with the `stats.size` and
`stats.mtimeMs` fields `enforceCacheLimit` reads.  `serveCached` refreshes
`mtime` via `fs.utimesSync`, so `mtime` is the last-access marker. -/
structure FsFile where
  name : String
  size : Nat
  mtime : Nat
  deriving Repr, DecidableEq

/-- Model of `String.prototype.endsWith` (kernel-evaluable). -/
def strEndsWith (s suffix : String) : Bool :=
  suffix.data.reverse.isPrefixOf s.data.reverse

/-- Model of `String.prototype.startsWith` (kernel-evaluable). -/
def strStartsWith (s pre : String) : Bool :=
  pre.data.isPrefixOf s.data

/-- The candidate list of an eviction pass: directory entries whose names do
not end in `.json` (src/index.js lines 129-130). -/
def payloadFiles (dir : List FsFile) : List FsFile :=
  dir.filter (fun f => ¬ strEndsWith f.name ".json")

/-- The `totalSize` of src/index.js line 137: sum of candidate sizes. -/
def payloadTotal (dir : List FsFile) : Nat :=
  ((payloadFiles dir).map FsFile.size).sum

/-- Stable insertion by ascending `mtime`; `insertByMtime e l` places `e`
before the first element of `l` that is not strictly older. -/
def insertByMtime (e : FsFile) : List FsFile → List FsFile
  | [] => [e]
  | x :: xs =>
    if x.mtime < e.mtime then x :: insertByMtime e xs else e :: x :: xs

/-- `files.sort((a, b) => a.mtime - b.mtime)` (src/index.js line 142):
a stable ascending sort by `mtime`, as ECMAScript `Array.prototype.sort`
guarantees. -/
def sortByMtime (l : List FsFile) : List FsFile :=
  l.foldr insertByMtime []

/-- Effect of `fs.unlinkSync` on the modelled directory. -/
def removeName (n : String) (dir : List FsFile) : List FsFile :=
  dir.filter (fun f => f.name ≠ n)

/-- Model of `fs.existsSync` over the directory listing. -/
def dirHas (n : String) (dir : List FsFile) : Bool :=
  dir.any (fun f => f.name = n)

/-- Result of an eviction pass: the directory afterwards, the entries the
loop attempted to delete (in attempt order), and the logged delete
failures (the `console.warn` calls of src/index.js line 157). -/
structure EvictOutcome where
  dir : List FsFile
  attempted : List FsFile
  failures : List String
  deriving Repr, DecidableEq

/-- The `for (const entry of files)` loop of src/index.js lines 145-159.
`failing n = true` models `fs.unlinkSync` throwing for path `n`.  A throw
on the payload skips the whole body (metadata kept, `currentSize` not
reduced); a throw on the sidecar happens after the payload unlink, so the
payload is gone but `currentSize` is still not reduced. -/
def evictLoop (maxCacheBytes : Nat) (failing : String → Bool) :
    List FsFile → Nat → List FsFile → EvictOutcome
  | [], _, dir => ⟨dir, [], []⟩
  | e :: rest, currentSize, dir =>
    if currentSize ≤ maxCacheBytes then ⟨dir, [], []⟩
    else if failing e.name then
      let r := evictLoop maxCacheBytes failing rest currentSize dir
      ⟨r.dir, e :: r.attempted, e.name :: r.failures⟩
    else
      let dirP := removeName e.name dir
      let metaName := e.name ++ ".json"
      if dirHas metaName dirP && failing metaName then
        let r := evictLoop maxCacheBytes failing rest currentSize dirP
        ⟨r.dir, e :: r.attempted, metaName :: r.failures⟩
      else
        let r := evictLoop maxCacheBytes failing rest (currentSize - e.size)
          (removeName metaName dirP)
        ⟨r.dir, e :: r.attempted, r.failures⟩

/-- `enforceCacheLimit` from src/index.js lines 128-160: list the directory,
keep non-`.json` names, sum their sizes, return early when at or below the
ceiling, otherwise delete in ascending-`mtime` order. -/
def enforceCacheLimit (maxCacheBytes : Nat) (failing : String → Bool)
    (dir : List FsFile) : EvictOutcome :=
  let files := payloadFiles dir
  let totalSize := (files.map FsFile.size).sum
  if totalSize ≤ maxCacheBytes then ⟨dir, [], []⟩
  else evictLoop maxCacheBytes failing (sortByMtime files) totalSize dir

/-! ### Streaming ingestion as an effect trace (src/index.js lines 223-302) -/

/-- Observable effects of the upstream-response handler, in program order. -/
inductive Ev
  | createStaging (name : String)
  | writeChunk (name : String) (bytes : Nat)
  | destroyUpstream
  | destroyFileStream
  | unlinkStaging (name : String)
  | failResponse (reason : String) (status : Nat)
  | fileStreamEnd
  | renamePublish (fromName toName : String)
  | writeMetaRecord (name : String) (contentType : String) (size : Nat)
  | evictPass
  | serveOk (contentType : String)
  | drainUpstream
  deriving Repr, DecidableEq

/-- The repeated `data` handler (src/index.js lines 252-268) followed by the
`end` handler (lines 270-290).  `downloaded += chunk.length` happens first;
when the running total exceeds the ceiling the handler destroys both
streams, unlinks the staging file and sends the oversize failure — the
crossing chunk is never written, and destroying the upstream stream means
no later `data` or `end` event fires.  On a clean end the staging file is
renamed to the payload path, the metadata sidecar is written, the eviction
pass runs, and the fresh payload is served. -/
def streamChunks (maxDownloadBytes : Nat)
    (tempFile cacheFile contentType : String) :
    List Nat → Nat → List Ev
  | [], downloaded =>
    [.fileStreamEnd, .renamePublish tempFile cacheFile,
     .writeMetaRecord cacheFile contentType downloaded, .evictPass,
     .serveOk contentType]
  | c :: rest, downloaded =>
    if downloaded + c > maxDownloadBytes then
      [.destroyUpstream, .destroyFileStream, .unlinkStaging tempFile,
       .failResponse "Image exceeds maximum download size."
         defaultFailureStatus]
    else
      .writeChunk tempFile c ::
        streamChunks maxDownloadBytes tempFile cacheFile contentType rest
          (downloaded + c)

/-- The declared-length guard of src/index.js lines 237-245.  The argument
is the declared `Content-Length` when the header is present and
`Number(...)` yields a finite value; `none` models an absent header or one
that does not parse to a finite number (then the guard is skipped). -/
def declaredOversize (maxDownloadBytes : Nat) : Option Nat → Bool
  | some n => decide (n > maxDownloadBytes)
  | none => false

/-- The upstream-response callback of src/index.js lines 223-302: the
non-200 status check, then the content-type check, then the declared-length
guard, then staging creation and the streamed download.  `chunks` are the
sizes of the body chunks the socket would deliver. -/
def handleUpstreamResponse (maxDownloadBytes : Nat) (cacheFile : String)
    (statusCode : Nat) (contentType : String) (contentLength : Option Nat)
    (chunks : List Nat) : List Ev :=
  if statusCode ≠ 200 then
    [.failResponse ("Imgur responded with status " ++ toString statusCode ++ ".")
       (if statusCode = 0 then 502 else statusCode), .drainUpstream]
  else if ¬ strStartsWith contentType "image/" then
    [.failResponse "Imgur response was not an image." defaultFailureStatus,
     .drainUpstream]
  else if declaredOversize maxDownloadBytes contentLength then
    [.failResponse "Image exceeds maximum download size." defaultFailureStatus,
     .drainUpstream]
  else
    .createStaging (cacheFile ++ ".tmp") ::
      streamChunks maxDownloadBytes (cacheFile ++ ".tmp") cacheFile
        contentType chunks 0

/-- Interpretation of one effect on the cache directory.  Freshly created
files get `mtime` 0; none of the proved claims depends on the timestamp a
creation assigns. -/
def applyEv (maxCacheBytes : Nat) (failing : String → Bool)
    (dir : List FsFile) : Ev → List FsFile
  | .createStaging n => dir ++ [⟨n, 0, 0⟩]
  | .writeChunk n b =>
    dir.map (fun f => if f.name = n then ⟨f.name, f.size + b, f.mtime⟩ else f)
  | .unlinkStaging n => removeName n dir
  | .renamePublish a b =>
    dir.map (fun f => if f.name = a then ⟨b, f.size, f.mtime⟩ else f)
  | .writeMetaRecord n _ _ => dir ++ [⟨n ++ ".json", 0, 0⟩]
  | .evictPass => (enforceCacheLimit maxCacheBytes failing dir).dir
  | _ => dir

/-- Run a whole effect trace against a starting directory state. -/
def runTrace (maxCacheBytes : Nat) (failing : String → Bool)
    (dir : List FsFile) (evs : List Ev) : List FsFile :=
  evs.foldl (applyEv maxCacheBytes failing) dir

/-- The number of chunks the data handler writes before the cumulative
byte count first exceeds the ceiling (the crossing chunk itself is not
written). -/
def crossIndex (maxDownloadBytes : Nat) : List Nat → Nat → Nat
  | [], _ => 0
  | c :: rest, downloaded =>
    if downloaded + c > maxDownloadBytes then 0
    else crossIndex maxDownloadBytes rest (downloaded + c) + 1

/-! ### Cache lookup (src/index.js lines 111-182) -/

/-- The metadata record of a sidecar file.  `contentType` is `Option`al
because a JSON record may lack the field (then `metadata.contentType ||
'application/octet-stream'` falls back). -/
structure CacheMetadata where
  contentType : Option String
  size : Nat
  cachedAt : String
  deriving Repr, DecidableEq

/-- JavaScript `v || d` for an optional string field: `undefined` and the
empty string are falsy. -/
def jsStrOr (v : Option String) (d : String) : String :=
  match v with
  | some s => if s = "" then d else s
  | none => d

/-- Outcomes of the synchronous filesystem calls the lookup makes.
`readFileResult p` models `fs.readFileSync(p, 'utf8')`, `statResult p`
models `fs.statSync(p).size`, `utimesResult p` models `fs.utimesSync(p)`;
`.error` means the call throws. -/
structure LookupFs where
  readFileResult : String → Except String String
  statResult : String → Except String Nat
  utimesResult : String → Except String Unit
  deriving Inhabited

/-- `metadataPathFor` from src/index.js lines 111-113. -/
def metadataPathFor (cacheFile : String) : String := cacheFile ++ ".json"

/-- `readMetadata` from src/index.js lines 115-122: the `try` covers both
the read and the parse, and any throw yields `null` (here `none`) instead
of propagating.  `parseMeta` models `JSON.parse` specialised to the record
shape; `.error` covers corrupt sidecar contents. -/
def readMetadata (parseMeta : String → Except String CacheMetadata)
    (fs : LookupFs) (cacheFile : String) : Option CacheMetadata :=
  match fs.readFileResult (metadataPathFor cacheFile) with
  | .error _ => none
  | .ok raw =>
    match parseMeta raw with
    | .error _ => none
    | .ok m => some m

/-- The headers `serveCached` writes on a hit. -/
structure ServedData where
  contentType : String
  contentLength : Nat
  cacheControl : String
  deriving Repr, DecidableEq

/-- `serveCached` from src/index.js lines 162-182: `none` is the `return
false` miss, `some` the served response.  A missing or corrupt metadata
record is a miss before any payload access; afterwards, the `try` block
turns any throw from `fs.statSync`/`fs.utimesSync` (payload absent or
inaccessible) into `return false`. -/
def serveCached (parseMeta : String → Except String CacheMetadata)
    (fs : LookupFs) (cacheFile : String) : Option ServedData :=
  match readMetadata parseMeta fs cacheFile with
  | none => none
  | some metadata =>
    match fs.statResult cacheFile with
    | .error _ => none
    | .ok size =>
      match fs.utimesResult cacheFile with
      | .error _ => none
      | .ok _ =>
        some { contentType := jsStrOr metadata.contentType "application/octet-stream"
               contentLength := size
               cacheControl := "public, max-age=86400" }

/-! ### Key derivation (src/index.js lines 105-109)

`crypto.createHash('sha256').update(requestPath).digest('hex')` is the
FIPS 180-4 SHA-256 of the UTF-8 bytes of the path, rendered as lowercase
hex.  The implementation below follows FIPS 180-4 directly: 32-bit words
are `Nat`s reduced mod `2^32`, and the round/initial constants are derived
from their defining property (the first 32 fractional bits of the cube and
square roots of the first primes, obtained with exact integer root
extraction). -/

/-- Reduction to a 32-bit word. -/
def w32 (n : Nat) : Nat := n % 4294967296

/-- Right rotation of a 32-bit word by `n` places (`0 < n < 32`). -/
def rotr32 (n x : Nat) : Nat := w32 ((x >>> n) ||| (x <<< (32 - n)))

/-- Lower-case sigma-0 of the SHA-256 message schedule. -/
def smallSigma0 (x : Nat) : Nat := (rotr32 7 x) ^^^ (rotr32 18 x) ^^^ (x >>> 3)

/-- Lower-case sigma-1 of the SHA-256 message schedule. -/
def smallSigma1 (x : Nat) : Nat := (rotr32 17 x) ^^^ (rotr32 19 x) ^^^ (x >>> 10)

/-- Upper-case sigma-0 of the SHA-256 round function. -/
def bigSigma0 (x : Nat) : Nat := (rotr32 2 x) ^^^ (rotr32 13 x) ^^^ (rotr32 22 x)

/-- Upper-case sigma-1 of the SHA-256 round function. -/
def bigSigma1 (x : Nat) : Nat := (rotr32 6 x) ^^^ (rotr32 11 x) ^^^ (rotr32 25 x)

/-- The SHA-256 choice function; `x ^^^ 4294967295` is 32-bit complement. -/
def chFn (e f g : Nat) : Nat := (e &&& f) ^^^ ((e ^^^ 4294967295) &&& g)

/-- The SHA-256 majority function. -/
def majFn (a b c : Nat) : Nat := (a &&& b) ^^^ (a &&& c) ^^^ (b &&& c)

/-- The first 64 primes, whose roots define the SHA-256 constants. -/
def firstPrimes : List Nat :=
  [2, 3, 5, 7, 11, 13, 17, 19, 23, 29, 31, 37, 41, 43, 47, 53,
   59, 61, 67, 71, 73, 79, 83, 89, 97, 101, 103, 107, 109, 113, 127, 131,
   137, 139, 149, 151, 157, 163, 167, 173, 179, 181, 191, 193, 197, 199,
   211, 223, 227, 229, 233, 239, 241, 251, 257, 263, 269, 271, 277, 281,
   283, 293, 307, 311]

/-- Fuel-driven binary search for the largest `r` with `r ^ e ≤ target`,
maintaining `lo ^ e ≤ target < hi ^ e`. -/
def irootAux (e target : Nat) : Nat → Nat → Nat → Nat
  | 0, lo, _ => lo
  | fuel + 1, lo, hi =>
    if hi ≤ lo + 1 then lo
    else
      let mid := (lo + hi) / 2
      if mid ^ e ≤ target then irootAux e target fuel mid hi
      else irootAux e target fuel lo mid

/-- Integer `e`-th root: the largest `r` with `r ^ e ≤ target`. -/
def iroot (e target : Nat) : Nat := irootAux e target 200 0 (target + 1)

/-- A SHA-256 round constant: the first 32 fractional bits of the cube
root of a prime, i.e. the low 32 bits of the integer cube root of
`p * 2 ^ 96`. -/
def kConst (p : Nat) : Nat := w32 (iroot 3 (p * 2 ^ 96))

/-- The 64 round constants `K`. -/
def kTable : List Nat := firstPrimes.map kConst

/-- A SHA-256 initial hash word: the first 32 fractional bits of the
square root of a prime. -/
def hConst (p : Nat) : Nat := w32 (iroot 2 (p * 2 ^ 64))

/-- The eight working variables of the compression function. -/
structure Hash8 where
  a : Nat
  b : Nat
  c : Nat
  d : Nat
  e : Nat
  f : Nat
  g : Nat
  h : Nat
  deriving Repr, DecidableEq

/-- The SHA-256 initial hash value `H(0)`. -/
def initialHash : Hash8 :=
  ⟨hConst 2, hConst 3, hConst 5, hConst 7,
   hConst 11, hConst 13, hConst 17, hConst 19⟩

/-- One SHA-256 round. -/
def roundStep (st : Hash8) (k w : Nat) : Hash8 :=
  let t1 := w32 (st.h + bigSigma1 st.e + chFn st.e st.f st.g + k + w)
  let t2 := w32 (bigSigma0 st.a + majFn st.a st.b st.c)
  ⟨w32 (t1 + t2), st.a, st.b, st.c, w32 (st.d + t1), st.e, st.f, st.g⟩

/-- Big-endian assembly of consecutive 4-byte groups into 32-bit words. -/
def words32Of : List Nat → List Nat
  | b0 :: b1 :: b2 :: b3 :: rest =>
    (((b0 * 256 + b1) * 256 + b2) * 256 + b3) :: words32Of rest
  | _ => []

/-- Extend a 16-word block to the 64-word message schedule. -/
def extendSchedule (block : List Nat) : List Nat :=
  (List.range 48).foldl
    (fun ws _ =>
      let n := ws.length
      ws ++ [w32 (ws.getD (n - 16) 0 + smallSigma0 (ws.getD (n - 15) 0)
        + ws.getD (n - 7) 0 + smallSigma1 (ws.getD (n - 2) 0))])
    block

/-- Compress one 64-byte block into the running hash value. -/
def compressBlock (st : Hash8) (block : List Nat) : Hash8 :=
  let ws := extendSchedule (words32Of block)
  let r := (kTable.zip ws).foldl (fun s p => roundStep s p.1 p.2) st
  ⟨w32 (st.a + r.a), w32 (st.b + r.b), w32 (st.c + r.c), w32 (st.d + r.d),
   w32 (st.e + r.e), w32 (st.f + r.f), w32 (st.g + r.g), w32 (st.h + r.h)⟩

/-- Big-endian bytes of `n`, `k` bytes wide. -/
def beBytes : Nat → Nat → List Nat
  | 0, _ => []
  | k + 1, n => beBytes k (n / 256) ++ [n % 256]

/-- UTF-8 encoding of one character (what `hash.update(string)` hashes). -/
def utf8Char (c : Char) : List Nat :=
  let n := c.toNat
  if n < 128 then [n]
  else if n < 2048 then [192 + n / 64, 128 + n % 64]
  else if n < 65536 then
    [224 + n / 4096, 128 + (n / 64) % 64, 128 + n % 64]
  else
    [240 + n / 262144, 128 + (n / 4096) % 64, 128 + (n / 64) % 64,
     128 + n % 64]

/-- UTF-8 bytes of a string. -/
def utf8Bytes (s : String) : List Nat :=
  s.data.foldr (fun c acc => utf8Char c ++ acc) []

/-- FIPS 180-4 padding: a `0x80` byte, zeros to 56 mod 64, then the bit
length as 8 big-endian bytes. -/
def padMessage (msg : List Nat) : List Nat :=
  msg ++ [128] ++ List.replicate ((119 - msg.length % 64) % 64) 0
    ++ beBytes 8 (8 * msg.length)

/-- Fuel-driven split into 64-byte blocks. -/
def blocksOf64 : Nat → List Nat → List (List Nat)
  | 0, _ => []
  | fuel + 1, bs =>
    if bs.length < 64 then [] else bs.take 64 :: blocksOf64 fuel (bs.drop 64)

/-- The SHA-256 state after absorbing a whole byte string. -/
def sha256Final (bytes : List Nat) : Hash8 :=
  let padded := padMessage bytes
  (blocksOf64 padded.length padded).foldl compressBlock initialHash

/-- Lower-case hex digit. -/
def hexDigitChar (n : Nat) : Char :=
  if n < 10 then Char.ofNat (48 + n) else Char.ofNat (87 + n)

/-- Eight-hex-digit rendering of a 32-bit word, most significant first. -/
def wordHex (w : Nat) : String :=
  String.mk ((List.range 8).map fun i => hexDigitChar ((w >>> (28 - 4 * i)) % 16))

/-- `crypto.createHash('sha256').update(s).digest('hex')`. -/
def sha256Hex (s : String) : String :=
  let f := sha256Final (utf8Bytes s)
  wordHex f.a ++ wordHex f.b ++ wordHex f.c ++ wordHex f.d
    ++ wordHex f.e ++ wordHex f.f ++ wordHex f.g ++ wordHex f.h

/-- The last path segment, as `path.basename`: everything after the final
slash. -/
def basenameOf (p : String) : List Char :=
  (p.data.reverse.takeWhile (fun c => c ≠ '/')).reverse

/-- `path.extname` (posix): the substring of the basename from its last
dot to the end; empty when the basename has no dot or only a leading dot. -/
def extnameOf (p : String) : String :=
  let b := basenameOf p
  if b.any (fun c => c = '.') then
    let afterRev := b.reverse.takeWhile (fun c => c ≠ '.')
    let dotIdx := b.length - afterRev.length - 1
    if dotIdx = 0 then "" else String.mk (b.drop dotIdx)
  else ""

/-- `cacheKeyFromPath` from src/index.js lines 105-109; this key is joined
to the cache directory as the payload filename (src/index.js lines
205-206), so the on-disk payload name is the key itself. -/
def cacheKeyFromPath (requestPath : String) : String :=
  sha256Hex requestPath ++ extnameOf requestPath

/-! ### Small specification-side helpers used by the theorems -/

/-- Single-pass character escaping; the theorems show the chained
replacements of `escapeXml` are equivalent to joining this per-character
encoding. -/
def xmlCharRef (c : Char) : List Char :=
  if c = '&' then "&amp;".data
  else if c = '<' then "&lt;".data
  else if c = '>' then "&gt;".data
  else if c = '"' then "&quot;".data
  else if c = '\'' then "&#39;".data
  else [c]

/-- Substring test (kernel-evaluable). -/
def containsSub (haystack needle : List Char) : Bool :=
  match haystack with
  | [] => needle.isEmpty
  | _ :: t => needle.isPrefixOf haystack || containsSub t needle

/-- Recogniser for the rename-publish effect. -/
def isRenameEv : Ev → Bool
  | .renamePublish _ _ => true
  | _ => false

/-! ## Theorems -/

/-- C10: configuration loading merges the parsed `config.json` over the
defaults with a top-level shallow merge only: a read or parse error yields
exactly the default configuration; each supplied top-level key replaces the
default; and a supplied partial `failureImage` object replaces the default
`failureImage` wholesale, so its unspecified sub-keys have no value rather
than their defaults. -/
theorem config_merge_shallow_and_default_fallback :
    (∀ e, loadConfig (.error e) = DEFAULT_CONFIG) ∧
    (∀ p : ConfigPart,
      (loadConfig (.ok p)).port = p.port.getD DEFAULT_CONFIG.port ∧
      (loadConfig (.ok p)).imgurBaseUrl
        = p.imgurBaseUrl.getD DEFAULT_CONFIG.imgurBaseUrl ∧
      (loadConfig (.ok p)).cacheDir = p.cacheDir.getD DEFAULT_CONFIG.cacheDir ∧
      (loadConfig (.ok p)).maxCacheBytes
        = p.maxCacheBytes.getD DEFAULT_CONFIG.maxCacheBytes ∧
      (loadConfig (.ok p)).maxDownloadBytes
        = p.maxDownloadBytes.getD DEFAULT_CONFIG.maxDownloadBytes ∧
      (loadConfig (.ok p)).failureImage
        = p.failureImage.getD DEFAULT_CONFIG.failureImage) ∧
    (∀ (p : ConfigPart) (fi : FailureImagePart), p.failureImage = some fi →
      (loadConfig (.ok p)).failureImage = fi ∧
      (fi.width = none → (loadConfig (.ok p)).failureImage.width = none) ∧
      (fi.height = none → (loadConfig (.ok p)).failureImage.height = none) ∧
      (fi.background = none →
        (loadConfig (.ok p)).failureImage.background = none)) := by
  refine ⟨fun _ => rfl, fun p => ⟨rfl, rfl, rfl, rfl, rfl, rfl⟩, ?_⟩
  intro p fi h
  refine ⟨by simp [loadConfig, h], ?_, ?_, ?_⟩ <;>
    intro hf <;> simp [loadConfig, h, hf]

/-- Witness: a `config.json` that overrides only `failureImage.height`
leaves `width` with no value instead of the default 640. -/
theorem config_merge_shallow_witness :
    (loadConfig (.ok ⟨none, none, none, none, none,
        some ⟨none, some 100, none, none, none⟩⟩)).failureImage
      = ⟨none, some 100, none, none, none⟩ ∧
    (loadConfig (.ok ⟨none, none, none, none, none,
        some ⟨none, some 100, none, none, none⟩⟩)).failureImage.width = none ∧
    loadConfig (.error "ENOENT") = DEFAULT_CONFIG := by
  refine ⟨?_, ?_, ?_⟩
  · exact (config_merge_shallow_and_default_fallback.2.2 _ _ rfl).1
  · exact (config_merge_shallow_and_default_fallback.2.2 _
      ⟨none, some 100, none, none, none⟩ rfl).2.1 rfl
  · exact config_merge_shallow_and_default_fallback.1 "ENOENT"

/-- C4: inconsistent on-disk state yields a miss, never an error: a missing
sidecar read or a corrupt (unparseable) sidecar makes `readMetadata` return
`none` instead of raising; a `none` metadata result makes the lookup miss;
and metadata presence with an absent/unreadable payload (the stat throws)
also makes the lookup miss. -/
theorem lookup_inconsistent_state_misses :
    ∀ (parseMeta : String → Except String CacheMetadata) (fs : LookupFs)
      (cacheFile : String),
      (∀ err, fs.readFileResult (metadataPathFor cacheFile) = .error err →
        readMetadata parseMeta fs cacheFile = none) ∧
      (∀ raw perr, fs.readFileResult (metadataPathFor cacheFile) = .ok raw →
        parseMeta raw = .error perr →
        readMetadata parseMeta fs cacheFile = none) ∧
      (readMetadata parseMeta fs cacheFile = none →
        serveCached parseMeta fs cacheFile = none) ∧
      (∀ m serr, readMetadata parseMeta fs cacheFile = some m →
        fs.statResult cacheFile = .error serr →
        serveCached parseMeta fs cacheFile = none) := by
  intro parseMeta fs cacheFile
  refine ⟨?_, ?_, ?_, ?_⟩
  · intro err h; simp [readMetadata, h]
  · intro raw perr h hp; simp [readMetadata, h, hp]
  · intro h; simp [serveCached, h]
  · intro m serr h hs; simp [serveCached, h, hs]

/-- Witness: a corrupt sidecar is a miss, and a sidecar whose payload stat
throws `ENOENT` (crash state) is a miss. -/
theorem lookup_inconsistent_witness :
    readMetadata (fun _ => .error "bad json")
      ⟨fun _ => .ok "raw", fun _ => .ok 3, fun _ => .ok ()⟩ "k.png" = none ∧
    serveCached (fun _ => .error "bad json")
      ⟨fun _ => .ok "raw", fun _ => .ok 3, fun _ => .ok ()⟩ "k.png" = none ∧
    serveCached (fun _ => .ok ⟨some "image/png", 5, "t"⟩)
      ⟨fun _ => .ok "raw", fun _ => .error "ENOENT", fun _ => .ok ()⟩ "k.png"
      = none := by
  refine ⟨?_, ?_, ?_⟩
  · exact (lookup_inconsistent_state_misses (fun _ => .error "bad json")
      ⟨fun _ => .ok "raw", fun _ => .ok 3, fun _ => .ok ()⟩ "k.png").2.1
      "raw" "bad json" rfl rfl
  · exact (lookup_inconsistent_state_misses (fun _ => .error "bad json")
      ⟨fun _ => .ok "raw", fun _ => .ok 3, fun _ => .ok ()⟩ "k.png").2.2.1 rfl
  · exact (lookup_inconsistent_state_misses (fun _ => .ok ⟨some "image/png", 5, "t"⟩)
      ⟨fun _ => .ok "raw", fun _ => .error "ENOENT", fun _ => .ok ()⟩
      "k.png").2.2.2 ⟨some "image/png", 5, "t"⟩ "ENOENT" rfl rfl

/-- C5: a declared Content-Length over the ceiling makes ingestion abort
before the body: the handler's whole effect trace is the oversize failure
response (status 413) and the body drain — no staging object is created,
no chunk is written, and the cache directory is left unchanged. -/
theorem declared_oversize_aborts_before_body :
    ∀ (maxD : Nat) (cacheFile contentType : String) (n : Nat)
      (chunks : List Nat) (maxC : Nat) (failing : String → Bool)
      (dir : List FsFile),
      strStartsWith contentType "image/" = true →
      n > maxD →
      handleUpstreamResponse maxD cacheFile 200 contentType (some n) chunks =
        [.failResponse "Image exceeds maximum download size." 413,
         .drainUpstream] ∧
      (∀ e ∈ handleUpstreamResponse maxD cacheFile 200 contentType (some n)
          chunks,
        (∀ nm, e ≠ .createStaging nm) ∧ (∀ nm b, e ≠ .writeChunk nm b)) ∧
      runTrace maxC failing dir
        (handleUpstreamResponse maxD cacheFile 200 contentType (some n)
          chunks) = dir := by
  intro maxD cacheFile ct n chunks maxC failing dir hct hn
  have hd : declaredOversize maxD (some n) = true := by
    simp [declaredOversize, hn]
  have htr : handleUpstreamResponse maxD cacheFile 200 ct (some n) chunks =
      [.failResponse "Image exceeds maximum download size." 413,
       .drainUpstream] := by
    simp [handleUpstreamResponse, hct, hd, defaultFailureStatus]
  refine ⟨htr, ?_, ?_⟩
  · rw [htr]; intro e he
    rcases List.mem_pair.mp he with h | h <;> subst h <;>
      exact ⟨fun _ => by simp, fun _ _ => by simp⟩
  · rw [htr]; rfl

/-- Witness: a 50 MB declared length against a 10 MB ceiling produces only
the 413 failure and the drain, and leaves a one-file cache untouched. -/
theorem declared_oversize_witness :
    handleUpstreamResponse 10485760 "k.png" 200 "image/png" (some 50000000)
        [1000] =
      [.failResponse "Image exceeds maximum download size." 413,
       .drainUpstream] ∧
    runTrace 1000000000 (fun _ => false) [⟨"old.png", 7, 1⟩]
      (handleUpstreamResponse 10485760 "k.png" 200 "image/png"
        (some 50000000) [1000]) = [⟨"old.png", 7, 1⟩] := by
  refine ⟨?_, ?_⟩
  · exact (declared_oversize_aborts_before_body 10485760 "k.png" "image/png"
      50000000 [1000] 1000000000 (fun _ => false) [⟨"old.png", 7, 1⟩]
      (by decide) (by decide)).1
  · exact (declared_oversize_aborts_before_body 10485760 "k.png" "image/png"
      50000000 [1000] 1000000000 (fun _ => false) [⟨"old.png", 7, 1⟩]
      (by decide) (by decide)).2.2

/-- On a stream whose total stays within the ceiling, the data/end handlers
write every chunk and then run the publish sequence, with the metadata size
equal to the running total plus the remaining bytes. -/
theorem streamChunks_clean (maxD : Nat) (t cf ct : String)
    (chunks : List Nat) :
    ∀ downloaded, downloaded + chunks.sum ≤ maxD →
      streamChunks maxD t cf ct chunks downloaded =
        chunks.map (fun c => .writeChunk t c) ++
          [.fileStreamEnd, .renamePublish t cf,
           .writeMetaRecord cf ct (downloaded + chunks.sum), .evictPass,
           .serveOk ct] := by
  induction chunks with
  | nil => intro d _; simp [streamChunks]
  | cons c rest ih =>
    intro d h
    rw [List.sum_cons] at h
    have hle : ¬ d + c > maxD := by omega
    rw [streamChunks, if_neg hle, ih (d + c) (by omega)]
    simp [Nat.add_assoc]

/-- On a stream whose total exceeds the ceiling, the data handler writes
exactly the chunks before the crossing chunk (their sum still within the
ceiling), then destroys both streams, unlinks the staging file and sends
the oversize failure; at least one chunk is never written. -/
theorem streamChunks_oversize (maxD : Nat) (t cf ct : String)
    (chunks : List Nat) :
    ∀ downloaded, downloaded ≤ maxD → downloaded + chunks.sum > maxD →
      streamChunks maxD t cf ct chunks downloaded =
        ((chunks.take (crossIndex maxD chunks downloaded)).map
            (fun c => .writeChunk t c)) ++
          [.destroyUpstream, .destroyFileStream, .unlinkStaging t,
           .failResponse "Image exceeds maximum download size."
             defaultFailureStatus] ∧
      downloaded + (chunks.take (crossIndex maxD chunks downloaded)).sum
        ≤ maxD ∧
      crossIndex maxD chunks downloaded < chunks.length := by
  induction chunks with
  | nil => intro d h1 h2; simp at h2; omega
  | cons c rest ih =>
    intro d h1 h2
    rw [List.sum_cons] at h2
    by_cases hc : d + c > maxD
    · refine ⟨?_, ?_, ?_⟩
      · simp [streamChunks, crossIndex, hc]
      · simp [crossIndex, hc]; omega
      · simp [crossIndex, hc]
    · have h3 := ih (d + c) (by omega) (by omega)
      have hcr : crossIndex maxD (c :: rest) d
          = crossIndex maxD rest (d + c) + 1 := by
        rw [crossIndex, if_neg hc]
      refine ⟨?_, ?_, ?_⟩
      · rw [streamChunks, if_neg hc, hcr, List.take_succ_cons,
          List.map_cons, List.cons_append, h3.1]
      · rw [hcr, List.take_succ_cons, List.sum_cons]
        have := h3.2.1
        omega
      · rw [hcr, List.length_cons]
        have := h3.2.2
        omega

/-- Writing a sequence of chunks to the staging file only grows the staging
file: the rest of the directory is untouched. -/
theorem runTrace_writes (maxC : Nat) (failing : String → Bool) (t : String)
    (ws : List Nat) :
    ∀ (dir : List FsFile) (s : Nat), (∀ f ∈ dir, f.name ≠ t) →
      runTrace maxC failing (dir ++ [⟨t, s, 0⟩])
        (ws.map (fun c => .writeChunk t c)) = dir ++ [⟨t, s + ws.sum, 0⟩] := by
  induction ws with
  | nil => intro dir s _; simp [runTrace]
  | cons c rest ih =>
    intro dir s hdir
    have hmap : dir.map
        (fun f => if f.name = t then ⟨f.name, f.size + c, f.mtime⟩ else f)
        = dir := by
      conv_rhs => rw [← List.map_id dir]
      exact List.map_congr_left (fun f hf => by simp [hdir f hf])
    have hstep : applyEv maxC failing (dir ++ [⟨t, s, 0⟩]) (.writeChunk t c)
        = dir ++ [⟨t, s + c, 0⟩] := by
      simp [applyEv, hmap]
    rw [List.map_cons, runTrace, List.foldl_cons, hstep]
    have := ih dir (s + c) hdir
    rw [runTrace] at this
    rw [this, Nat.add_assoc]
    simp

/-- Unlinking the staging file removes exactly it when no other directory
entry shares its name. -/
theorem removeName_append_self (t : String) (dir : List FsFile) (x : FsFile)
    (hx : x.name = t) (hdir : ∀ f ∈ dir, f.name ≠ t) :
    removeName t (dir ++ [x]) = dir := by
  rw [removeName, List.filter_append]
  have h1 : dir.filter (fun f => f.name ≠ t) = dir :=
    List.filter_eq_self.mpr (fun f hf => by simp [hdir f hf])
  have h2 : [x].filter (fun f => f.name ≠ t) = [] := by
    simp [List.filter, hx]
  rw [h1, h2, List.append_nil]

/-- Chunk writes are never rename events. -/
theorem filter_rename_writes (t : String) (l : List Nat) :
    (l.map (fun c => Ev.writeChunk t c)).filter isRenameEv = [] := by
  induction l with
  | nil => rfl
  | cons c rest ih =>
    rw [List.map_cons, List.filter_cons_of_neg (by simp [isRenameEv])]
    exact ih

/-- C3: an ingestion that reaches clean end-of-stream within the ceiling
produces exactly this effect sequence: create the staging file, write every
chunk to it, end the file stream, publish by a single rename of the staging
file to the payload path, write the metadata record, run the eviction pass,
serve the fresh payload — so the rename (not a copy) happens strictly
before the metadata write, which happens strictly before eviction, and the
trace contains exactly one rename. -/
theorem clean_ingest_effect_order :
    ∀ (maxD : Nat) (cacheFile contentType : String) (len : Option Nat)
      (chunks : List Nat),
      strStartsWith contentType "image/" = true →
      declaredOversize maxD len = false →
      chunks.sum ≤ maxD →
      handleUpstreamResponse maxD cacheFile 200 contentType len chunks =
        .createStaging (cacheFile ++ ".tmp") ::
          (chunks.map (fun c => .writeChunk (cacheFile ++ ".tmp") c) ++
            [.fileStreamEnd,
             .renamePublish (cacheFile ++ ".tmp") cacheFile,
             .writeMetaRecord cacheFile contentType chunks.sum,
             .evictPass,
             .serveOk contentType]) ∧
      (handleUpstreamResponse maxD cacheFile 200 contentType len
          chunks).filter isRenameEv
        = [.renamePublish (cacheFile ++ ".tmp") cacheFile] := by
  intro maxD cf ct len chunks hct hlen hsum
  have htr : handleUpstreamResponse maxD cf 200 ct len chunks =
      .createStaging (cf ++ ".tmp") ::
        (chunks.map (fun c => .writeChunk (cf ++ ".tmp") c) ++
          [.fileStreamEnd, .renamePublish (cf ++ ".tmp") cf,
           .writeMetaRecord cf ct chunks.sum, .evictPass,
           .serveOk ct]) := by
    rw [handleUpstreamResponse]
    rw [if_neg (by simp), if_neg (by simp [hct]), if_neg (by simp [hlen]),
      streamChunks_clean maxD (cf ++ ".tmp") cf ct chunks 0 (by simpa)]
    simp
  refine ⟨htr, ?_⟩
  rw [htr, List.filter_cons_of_neg (by simp [isRenameEv]), List.filter_append,
    filter_rename_writes]
  rfl

/-- Witness: a two-chunk download within a 10-byte ceiling yields the full
create/write/end/rename/metadata/evict/serve sequence. -/
theorem clean_ingest_witness :
    handleUpstreamResponse 10 "k.png" 200 "image/png" none [3, 4] =
      [.createStaging "k.png.tmp", .writeChunk "k.png.tmp" 3,
       .writeChunk "k.png.tmp" 4, .fileStreamEnd,
       .renamePublish "k.png.tmp" "k.png",
       .writeMetaRecord "k.png" "image/png" 7, .evictPass,
       .serveOk "image/png"] ∧
    (handleUpstreamResponse 10 "k.png" 200 "image/png" none [3, 4]).filter
        isRenameEv = [.renamePublish "k.png.tmp" "k.png"] := by
  have h := clean_ingest_effect_order 10 "k.png" "image/png" none [3, 4]
    (by decide) (by decide) (by decide)
  exact ⟨by rw [h.1]; decide, h.2⟩

/-- C1: the instant the cumulative byte count of an upstream stream exceeds
the ceiling, ingestion aborts: only the chunks before the crossing chunk
were written (their total within the ceiling), at least one chunk is never
read, the staging object is deleted, the caller gets the oversize failure
placeholder (status 413), no rename ever publishes a payload, and running
the whole trace leaves the cache directory exactly as it was — so no
payload file larger than the ceiling persists. -/
theorem oversize_stream_aborts_and_discards :
    ∀ (maxD : Nat) (cacheFile contentType : String) (len : Option Nat)
      (chunks : List Nat) (maxC : Nat) (failing : String → Bool)
      (dir : List FsFile),
      strStartsWith contentType "image/" = true →
      declaredOversize maxD len = false →
      chunks.sum > maxD →
      (∀ f ∈ dir, f.name ≠ cacheFile ++ ".tmp") →
      handleUpstreamResponse maxD cacheFile 200 contentType len chunks =
        .createStaging (cacheFile ++ ".tmp") ::
          (((chunks.take (crossIndex maxD chunks 0)).map
              (fun c => .writeChunk (cacheFile ++ ".tmp") c)) ++
            [.destroyUpstream, .destroyFileStream,
             .unlinkStaging (cacheFile ++ ".tmp"),
             .failResponse "Image exceeds maximum download size." 413]) ∧
      (chunks.take (crossIndex maxD chunks 0)).sum ≤ maxD ∧
      crossIndex maxD chunks 0 < chunks.length ∧
      (handleUpstreamResponse maxD cacheFile 200 contentType len
          chunks).filter isRenameEv = [] ∧
      runTrace maxC failing dir
        (handleUpstreamResponse maxD cacheFile 200 contentType len chunks)
        = dir := by
  intro maxD cf ct len chunks maxC failing dir hct hlen hsum hdir
  have hstream := streamChunks_oversize maxD (cf ++ ".tmp") cf ct chunks 0
    (Nat.zero_le maxD) (by simpa)
  have htr : handleUpstreamResponse maxD cf 200 ct len chunks =
      .createStaging (cf ++ ".tmp") ::
        (((chunks.take (crossIndex maxD chunks 0)).map
            (fun c => .writeChunk (cf ++ ".tmp") c)) ++
          [.destroyUpstream, .destroyFileStream,
           .unlinkStaging (cf ++ ".tmp"),
           .failResponse "Image exceeds maximum download size." 413]) := by
    rw [handleUpstreamResponse]
    rw [if_neg (by simp), if_neg (by simp [hct]), if_neg (by simp [hlen]),
      hstream.1]
    rfl
  refine ⟨htr, by simpa using hstream.2.1, hstream.2.2, ?_, ?_⟩
  · rw [htr, List.filter_cons_of_neg (by simp [isRenameEv]), List.filter_append,
      filter_rename_writes]
    rfl
  · rw [htr, runTrace, List.foldl_cons]
    have hcreate : applyEv maxC failing dir (.createStaging (cf ++ ".tmp"))
        = dir ++ [⟨cf ++ ".tmp", 0, 0⟩] := rfl
    rw [hcreate, List.foldl_append]
    have hwrites := runTrace_writes maxC failing (cf ++ ".tmp")
      (chunks.take (crossIndex maxD chunks 0)) dir 0 hdir
    rw [runTrace] at hwrites
    rw [hwrites]
    show applyEv maxC failing (applyEv maxC failing (applyEv maxC failing
      (applyEv maxC failing (dir ++ [⟨cf ++ ".tmp",
        0 + (chunks.take (crossIndex maxD chunks 0)).sum, 0⟩])
      .destroyUpstream) .destroyFileStream) (.unlinkStaging (cf ++ ".tmp")))
      (.failResponse "Image exceeds maximum download size." 413) = dir
    rw [show ∀ d, applyEv maxC failing d .destroyUpstream = d from fun _ => rfl,
      show ∀ d, applyEv maxC failing d .destroyFileStream = d from
        fun _ => rfl]
    rw [show applyEv maxC failing (dir ++ [⟨cf ++ ".tmp",
        0 + (chunks.take (crossIndex maxD chunks 0)).sum, 0⟩])
        (.unlinkStaging (cf ++ ".tmp"))
      = removeName (cf ++ ".tmp") (dir ++ [⟨cf ++ ".tmp",
        0 + (chunks.take (crossIndex maxD chunks 0)).sum, 0⟩]) from rfl]
    rw [removeName_append_self (cf ++ ".tmp") dir _ rfl hdir]
    rfl

/-- Witness: chunks of 6 and 7 bytes against a 10-byte ceiling: only the
first chunk is written, the staging file is unlinked, the 413 failure is
sent, and a pre-existing directory entry survives untouched. -/
theorem oversize_stream_witness :
    handleUpstreamResponse 10 "k.png" 200 "image/png" none [6, 7] =
      [.createStaging "k.png.tmp", .writeChunk "k.png.tmp" 6,
       .destroyUpstream, .destroyFileStream, .unlinkStaging "k.png.tmp",
       .failResponse "Image exceeds maximum download size." 413] ∧
    runTrace 1000000000 (fun _ => false) [⟨"old.png", 7, 1⟩]
      (handleUpstreamResponse 10 "k.png" 200 "image/png" none [6, 7])
      = [⟨"old.png", 7, 1⟩] := by
  have h := oversize_stream_aborts_and_discards 10 "k.png" "image/png" none
    [6, 7] 1000000000 (fun _ => false) [⟨"old.png", 7, 1⟩]
    (by decide) (by decide) (by decide)
    (by intro f hf; simp at hf; subst hf; decide)
  exact ⟨by rw [h.1]; rfl, h.2.2.2.2⟩

/-- A global single-character replacement distributes over append. -/
theorem replaceAllChar_append (c : Char) (r xs ys : List Char) :
    replaceAllChar c r (xs ++ ys)
      = replaceAllChar c r xs ++ replaceAllChar c r ys := by
  induction xs with
  | nil => rfl
  | cons x t ih => simp [replaceAllChar, ih, List.append_assoc]

/-- The five chained replacements of `escapeXml` are one per-character
escaping pass: later replacements never rewrite the entity strings the
earlier ones introduced. -/
theorem escapeXml_data (v : String) :
    (escapeXml v).data = (v.data.map xmlCharRef).flatten := by
  show replaceAllChar '\'' "&#39;".data (replaceAllChar '"' "&quot;".data
      (replaceAllChar '>' "&gt;".data (replaceAllChar '<' "&lt;".data
        (replaceAllChar '&' "&amp;".data v.data))))
    = (v.data.map xmlCharRef).flatten
  induction v.data with
  | nil => rfl
  | cons x t ih =>
    rw [show replaceAllChar '&' "&amp;".data (x :: t)
        = (if x = '&' then "&amp;".data else [x])
          ++ replaceAllChar '&' "&amp;".data t from rfl]
    rw [replaceAllChar_append, replaceAllChar_append, replaceAllChar_append,
      replaceAllChar_append, List.map_cons, List.flatten_cons, ih]
    congr 1
    by_cases h1 : x = '&'
    · subst h1; rfl
    · rw [if_neg h1]
      by_cases h2 : x = '<'
      · subst h2; rfl
      · by_cases h3 : x = '>'
        · subst h3; rfl
        · by_cases h4 : x = '"'
          · subst h4; rfl
          · by_cases h5 : x = '\''
            · subst h5; rfl
            · simp [replaceAllChar, xmlCharRef, h1, h2, h3, h4, h5]

/-- No raw XML-special character survives escaping. -/
theorem escapeXml_no_specials (v : String) :
    ∀ c ∈ (escapeXml v).data, c ≠ '<' ∧ c ≠ '>' ∧ c ≠ '"' ∧ c ≠ '\'' := by
  intro c hc
  rw [escapeXml_data] at hc
  rcases List.mem_flatten.mp hc with ⟨l, hl, hcl⟩
  rcases List.mem_map.mp hl with ⟨x, _, rfl⟩
  by_cases h1 : x = '&'
  · subst h1; simp [xmlCharRef] at hcl
    rcases hcl with rfl | rfl | rfl | rfl | rfl <;> decide
  · by_cases h2 : x = '<'
    · subst h2; simp [xmlCharRef, h1] at hcl
      rcases hcl with rfl | rfl | rfl | rfl <;> decide
    · by_cases h3 : x = '>'
      · subst h3; simp [xmlCharRef, h1, h2] at hcl
        rcases hcl with rfl | rfl | rfl | rfl <;> decide
      · by_cases h4 : x = '"'
        · subst h4; simp [xmlCharRef, h1, h2, h3] at hcl
          rcases hcl with rfl | rfl | rfl | rfl | rfl | rfl <;> decide
        · by_cases h5 : x = '\''
          · subst h5; simp [xmlCharRef, h1, h2, h3, h4] at hcl
            rcases hcl with rfl | rfl | rfl | rfl | rfl <;> decide
          · simp [xmlCharRef, h1, h2, h3, h4, h5] at hcl
            subst hcl
            exact ⟨h2, h3, h4, h5⟩

/-- A prefix of a string is still a prefix after appending on the right. -/
theorem strStartsWith_extend (a b p : String)
    (h : strStartsWith a p = true) : strStartsWith (a ++ b) p = true := by
  rw [strStartsWith, List.isPrefixOf_iff_prefix] at h ⊢
  rw [String.data_append]
  exact h.trans (List.prefix_append _ _)

/-- A suffix of a string is still a suffix after prepending on the left. -/
theorem strEndsWith_extend (a b s : String)
    (h : strEndsWith b s = true) : strEndsWith (a ++ b) s = true := by
  rw [strEndsWith, List.isPrefixOf_iff_prefix] at h ⊢
  rw [String.data_append, List.reverse_append]
  exact h.trans (List.prefix_append _ _)

/-- Every rendered placeholder is framed as an XML/SVG document. -/
theorem renderFailureSvg_frame (cfg : FailureImage) (reason : String) :
    strStartsWith (renderFailureSvg cfg reason) "<?xml version=" = true ∧
    strEndsWith (renderFailureSvg cfg reason) "</svg>" = true := by
  constructor
  · show strStartsWith (svgHead cfg.width cfg.height cfg.background
        cfg.accentColor cfg.textColor
      ++ renderSpans cfg.width cfg.height
          (wrapText (escapeXml reason) 42) ++ svgTail) "<?xml version=" = true
    apply strStartsWith_extend
    apply strStartsWith_extend
    rw [svgHead]
    repeat apply strStartsWith_extend
    decide
  · show strEndsWith (svgHead cfg.width cfg.height cfg.background
        cfg.accentColor cfg.textColor
      ++ renderSpans cfg.width cfg.height
          (wrapText (escapeXml reason) 42) ++ svgTail) "</svg>" = true
    apply strEndsWith_extend
    decide

/-- A string with a non-empty prefix is non-empty. -/
theorem ne_empty_of_startsWith (a p : String)
    (h : strStartsWith a p = true) (hp : p.data ≠ []) : a ≠ "" := by
  rw [strStartsWith, List.isPrefixOf_iff_prefix] at h
  intro ha
  subst ha
  have hlen : p.data.length ≤ 0 := by simpa using h.length_le
  exact hp (List.length_eq_zero.mp (Nat.le_zero.mp hlen))

/-- C8: the placeholder renderer is total and deterministic: for every
configuration and every reason string (the empty string included) it emits
the fixed SVG template around the reason text, which is escaped by a
per-character pass that leaves no raw XML-special character, then
word-wrapped at column 42; the block of lines is vertically centered (the
top gap equals the bottom gap); and the output is always a framed
XML/SVG document. -/
theorem renderer_total_escaped_wrapped :
    ∀ (cfg : FailureImage) (reason : String),
      (escapeXml reason).data = (reason.data.map xmlCharRef).flatten ∧
      (∀ c ∈ (escapeXml reason).data,
        c ≠ '<' ∧ c ≠ '>' ∧ c ≠ '"' ∧ c ≠ '\'') ∧
      renderFailureSvg cfg reason =
        svgHead cfg.width cfg.height cfg.background cfg.accentColor
            cfg.textColor
          ++ renderSpans cfg.width cfg.height (wrapText (escapeXml reason) 42)
          ++ svgTail ∧
      strStartsWith (renderFailureSvg cfg reason) "<?xml version=" = true ∧
      strEndsWith (renderFailureSvg cfg reason) "</svg>" = true ∧
      renderFailureSvg cfg reason ≠ "" ∧
      (∀ n : Nat, 2 * startYHalf cfg.height n + 52 * (n : Int)
        = 2 * (cfg.height : Int)) := by
  intro cfg reason
  refine ⟨escapeXml_data reason, escapeXml_no_specials reason, rfl,
    (renderFailureSvg_frame cfg reason).1, (renderFailureSvg_frame cfg reason).2,
    ne_empty_of_startsWith _ _ (renderFailureSvg_frame cfg reason).1
      (by decide), ?_⟩
  intro n
  rw [startYHalf]
  ring

/-- Witness: rendering the reason `a<b` under the default configuration:
the escaped text has no raw specials and the document is framed. -/
theorem renderer_total_witness :
    ('a' ≠ '<' ∧ 'a' ≠ '>' ∧ 'a' ≠ '"' ∧ 'a' ≠ '\'') ∧
    strStartsWith (renderFailureSvg defaultFailureImage "a<b")
      "<?xml version=" = true ∧
    renderFailureSvg defaultFailureImage "a<b" ≠ "" := by
  refine ⟨(renderer_total_escaped_wrapped defaultFailureImage "a<b").2.1 'a'
      (by decide),
    (renderer_total_escaped_wrapped defaultFailureImage "a<b").2.2.2.1,
    (renderer_total_escaped_wrapped defaultFailureImage "a<b").2.2.2.2.2.1⟩

set_option maxRecDepth 40000 in
/-- C6: every failure response is a non-empty placeholder SVG with
`Content-Type: image/svg+xml; charset=utf-8` and `Cache-Control: no-store`;
the status defaults to 413 and is overridden per failure reason; a non-200
upstream status is mirrored in the response status with the reason text
embedding that status number, and in particular the rendered body for an
upstream 404 contains the text `404`. -/
theorem failure_response_shape_and_status :
    (∀ (cfg : FailureImage) (reason : String) (statusCode : Nat),
      (sendFailure cfg reason statusCode).status = statusCode ∧
      (sendFailure cfg reason statusCode).contentType
        = "image/svg+xml; charset=utf-8" ∧
      (sendFailure cfg reason statusCode).cacheControl = "no-store" ∧
      (sendFailure cfg reason statusCode).body = renderFailureSvg cfg reason ∧
      (sendFailure cfg reason statusCode).body ≠ "") ∧
    defaultFailureStatus = 413 ∧
    (∀ (maxD : Nat) (cacheFile contentType : String) (len : Option Nat)
       (chunks : List Nat) (s : Nat), s ≠ 200 → s ≠ 0 →
      handleUpstreamResponse maxD cacheFile s contentType len chunks =
        [.failResponse ("Imgur responded with status " ++ toString s ++ ".") s,
         .drainUpstream]) ∧
    (∀ s : Nat, ∃ a b : String,
      ("Imgur responded with status " ++ toString s ++ ".")
        = a ++ toString s ++ b) ∧
    containsSub (renderFailureSvg defaultFailureImage
      "Imgur responded with status 404.").data "404".data = true := by
  refine ⟨?_, rfl, ?_, ?_, by decide⟩
  · intro cfg reason statusCode
    exact ⟨rfl, rfl, rfl, rfl,
      ne_empty_of_startsWith _ _ (renderFailureSvg_frame cfg reason).1
        (by decide)⟩
  · intro maxD cf ct len chunks s hs hs0
    rw [handleUpstreamResponse, if_pos hs, if_neg hs0]
  · intro s
    exact ⟨"Imgur responded with status ", ".", rfl⟩

/-- Witness: an upstream 404 is mirrored as response status 404 with the
status number in the reason. -/
theorem failure_response_witness :
    (sendFailure defaultFailureImage "Imgur responded with status 404."
      404).status = 404 ∧
    handleUpstreamResponse 10485760 "k.png" 404 "image/png" none [] =
      [.failResponse "Imgur responded with status 404." 404,
       .drainUpstream] := by
  refine ⟨(failure_response_shape_and_status.1 defaultFailureImage
    "Imgur responded with status 404." 404).1, ?_⟩
  have h := failure_response_shape_and_status.2.2.1 10485760 "k.png"
    "image/png" none [] 404 (by decide) (by decide)
  rw [h]
  rfl

/-- Inserting into the sorted list is a permutation of consing. -/
theorem insertByMtime_perm (e : FsFile) (l : List FsFile) :
    (insertByMtime e l).Perm (e :: l) := by
  induction l with
  | nil => exact List.Perm.refl _
  | cons x xs ih =>
    rw [insertByMtime]
    by_cases h : x.mtime < e.mtime
    · rw [if_pos h]
      exact (ih.cons x).trans (List.Perm.swap e x xs)
    · rw [if_neg h]

/-- The mtime sort is a permutation of its input. -/
theorem sortByMtime_perm (l : List FsFile) : (sortByMtime l).Perm l := by
  induction l with
  | nil => exact List.Perm.refl _
  | cons x xs ih => exact (insertByMtime_perm x (sortByMtime xs)).trans (ih.cons x)

/-- Insertion preserves ascending-mtime order. -/
theorem insertByMtime_sorted (e : FsFile) (l : List FsFile)
    (h : l.Pairwise (fun a b => a.mtime ≤ b.mtime)) :
    (insertByMtime e l).Pairwise (fun a b => a.mtime ≤ b.mtime) := by
  induction l with
  | nil => simp [insertByMtime]
  | cons x xs ih =>
    rw [insertByMtime]
    rcases List.pairwise_cons.mp h with ⟨hx, hxs⟩
    by_cases hlt : x.mtime < e.mtime
    · rw [if_pos hlt]
      refine List.pairwise_cons.mpr ⟨?_, ih hxs⟩
      intro b hb
      rcases List.mem_cons.mp ((insertByMtime_perm e xs).mem_iff.mp hb) with
        rfl | hb'
      · omega
      · exact hx b hb'
    · rw [if_neg hlt]
      refine List.pairwise_cons.mpr ⟨?_, h⟩
      intro b hb
      rcases List.mem_cons.mp hb with rfl | hb'
      · omega
      · have := hx b hb'
        omega

/-- The mtime sort is ascending. -/
theorem sortByMtime_sorted (l : List FsFile) :
    (sortByMtime l).Pairwise (fun a b => a.mtime ≤ b.mtime) := by
  induction l with
  | nil => simp [sortByMtime]
  | cons x xs ih => exact insertByMtime_sorted x (sortByMtime xs) ih

/-- Unlinking a name nobody has is a no-op. -/
theorem removeName_not_mem (n : String) (dir : List FsFile)
    (h : ∀ f ∈ dir, f.name ≠ n) : removeName n dir = dir :=
  List.filter_eq_self.mpr (fun f hf => by simp [h f hf])

/-- Unlinking only shrinks the directory. -/
theorem removeName_sublist (n : String) (dir : List FsFile) :
    (removeName n dir).Sublist dir :=
  List.filter_sublist _

/-- The unlinked name is gone. -/
theorem not_mem_names_removeName (n : String) (dir : List FsFile) :
    n ∉ (removeName n dir).map FsFile.name := by
  intro h
  rcases List.mem_map.mp h with ⟨f, hf, hfn⟩
  rcases List.mem_filter.mp hf with ⟨_, hp⟩
  simp at hp
  exact hp hfn

/-- The candidate-sum of a cons. -/
theorem payloadTotal_cons (x : FsFile) (xs : List FsFile) :
    payloadTotal (x :: xs)
      = (if strEndsWith x.name ".json" = false then x.size else 0)
        + payloadTotal xs := by
  by_cases h : strEndsWith x.name ".json" = false
  · rw [if_pos h, payloadTotal, payloadFiles, List.filter_cons_of_pos
      (by simp [h])]
    simp [payloadTotal, payloadFiles]
  · rw [if_neg h, payloadTotal, payloadFiles, List.filter_cons_of_neg
      (by simpa using h)]
    simp [payloadTotal, payloadFiles]

/-- Deleting a payload file with a unique name removes exactly its size
from the candidate sum. -/
theorem payloadTotal_removeName (dir : List FsFile) (e : FsFile)
    (hmem : e ∈ dir) (hpay : strEndsWith e.name ".json" = false)
    (hnd : (dir.map FsFile.name).Nodup) :
    payloadTotal dir = payloadTotal (removeName e.name dir) + e.size := by
  induction dir with
  | nil => cases hmem
  | cons x xs ih =>
    rw [List.map_cons, List.nodup_cons] at hnd
    rcases hnd with ⟨hxnot, hxs⟩
    rcases List.mem_cons.mp hmem with rfl | hmem'
    · have hrest : removeName e.name xs = xs :=
        removeName_not_mem _ _ (fun f hf hc => hxnot (hc ▸ List.mem_map_of_mem FsFile.name hf))
      rw [removeName, List.filter_cons_of_neg (by simp), ← removeName, hrest,
        payloadTotal_cons, if_pos hpay, Nat.add_comm]
    · have hne : x.name ≠ e.name := by
        intro hc
        exact hxnot (hc ▸ List.mem_map_of_mem FsFile.name hmem')
      rw [removeName, List.filter_cons_of_pos (by simpa using hne),
        ← removeName, payloadTotal_cons, payloadTotal_cons,
        ih hmem' hxs, Nat.add_assoc]

/-- Deleting a sidecar-named file never changes the candidate sum. -/
theorem payloadTotal_removeName_sidecar (n : String) (dir : List FsFile)
    (h : strEndsWith n ".json" = true) :
    payloadTotal (removeName n dir) = payloadTotal dir := by
  induction dir with
  | nil => rfl
  | cons x xs ih =>
    by_cases hx : x.name = n
    · rw [removeName, List.filter_cons_of_neg (by simp [hx]), ← removeName,
        ih, payloadTotal_cons, if_neg (by simp [hx, h])]
      omega
    · rw [removeName, List.filter_cons_of_pos (by simpa using hx),
        ← removeName, payloadTotal_cons, payloadTotal_cons, ih]

/-- Appending `.json` always yields a sidecar name. -/
theorem strEndsWith_append_json (s : String) :
    strEndsWith (s ++ ".json") ".json" = true := by
  rw [strEndsWith, String.data_append, List.reverse_append,
    List.isPrefixOf_iff_prefix]
  exact List.prefix_append _ _

/-- The eviction loop attempts a prefix of its candidate list (so deletion
attempts happen in candidate order) and only ever shrinks the directory. -/
theorem evictLoop_structural (maxC : Nat) (failing : String → Bool) :
    ∀ (entries : List FsFile) (current : Nat) (dir : List FsFile),
      (evictLoop maxC failing entries current dir).attempted <+: entries ∧
      (evictLoop maxC failing entries current dir).dir.Sublist dir := by
  intro entries
  induction entries with
  | nil =>
    intro current dir
    exact ⟨List.nil_prefix, List.Sublist.refl _⟩
  | cons e rest ih =>
    intro current dir
    rw [evictLoop]
    by_cases h1 : current ≤ maxC
    · rw [if_pos h1]
      exact ⟨List.nil_prefix, List.Sublist.refl _⟩
    · rw [if_neg h1]
      by_cases h2 : failing e.name = true
      · rw [if_pos h2]
        exact ⟨List.cons_prefix_cons.mpr ⟨rfl, (ih current dir).1⟩,
          (ih current dir).2⟩
      · rw [if_neg h2]
        by_cases h3 : (dirHas (e.name ++ ".json") (removeName e.name dir)
            && failing (e.name ++ ".json")) = true
        · rw [if_pos h3]
          exact ⟨List.cons_prefix_cons.mpr
              ⟨rfl, (ih current (removeName e.name dir)).1⟩,
            (ih current (removeName e.name dir)).2.trans
              (removeName_sublist _ _)⟩
        · rw [if_neg h3]
          exact ⟨List.cons_prefix_cons.mpr
              ⟨rfl, (ih (current - e.size)
                (removeName (e.name ++ ".json") (removeName e.name dir))).1⟩,
            ((ih (current - e.size)
                (removeName (e.name ++ ".json") (removeName e.name dir))).2.trans
              (removeName_sublist _ _)).trans (removeName_sublist _ _)⟩

/-- When the loop starts above the ceiling with a non-empty candidate list,
it attempts at least one deletion. -/
theorem evictLoop_attempted_ne_nil (maxC : Nat) (failing : String → Bool)
    (e : FsFile) (rest : List FsFile) (current : Nat) (dir : List FsFile)
    (h : ¬ current ≤ maxC) :
    (evictLoop maxC failing (e :: rest) current dir).attempted ≠ [] := by
  rw [evictLoop, if_neg h]
  by_cases h2 : failing e.name = true
  · rw [if_pos h2]
    simp
  · rw [if_neg h2]
    by_cases h3 : (dirHas (e.name ++ ".json") (removeName e.name dir)
        && failing (e.name ++ ".json")) = true
    · rw [if_pos h3]
      simp
    · rw [if_neg h3]
      simp

/-- When every attempted delete succeeds, the loop drives the candidate
sum to the ceiling (or runs out of candidates, having deleted them all),
and each attempted entry is gone from the resulting directory together
with its metadata sidecar. -/
theorem evictLoop_no_failures (maxC : Nat) (failing : String → Bool) :
    ∀ (entries : List FsFile) (current : Nat) (dir : List FsFile),
      (dir.map FsFile.name).Nodup →
      (∀ e ∈ entries, e ∈ dir ∧ strEndsWith e.name ".json" = false) →
      (entries.map FsFile.name).Nodup →
      current = payloadTotal dir →
      payloadTotal dir - (entries.map FsFile.size).sum ≤ maxC →
      (evictLoop maxC failing entries current dir).failures = [] →
      payloadTotal (evictLoop maxC failing entries current dir).dir ≤ maxC ∧
      ∀ e ∈ (evictLoop maxC failing entries current dir).attempted,
        e.name ∉ (evictLoop maxC failing entries current dir).dir.map
          FsFile.name ∧
        (e.name ++ ".json")
          ∉ (evictLoop maxC failing entries current dir).dir.map
            FsFile.name := by
  intro entries
  induction entries with
  | nil =>
    intro current dir _ _ _ _ hrem _
    rw [evictLoop]
    refine ⟨by simpa using hrem, ?_⟩
    intro x hx
    exact absurd (hx : x ∈ ([] : List FsFile)) (by simp)
  | cons e rest ih =>
    intro current dir hnd hmem hent hcur hrem hfail
    rw [evictLoop] at hfail ⊢
    by_cases h1 : current ≤ maxC
    · rw [if_pos h1] at hfail ⊢
      refine ⟨by show payloadTotal dir ≤ maxC; omega, ?_⟩
      intro x hx
      exact absurd (hx : x ∈ ([] : List FsFile)) (by simp)
    · rw [if_neg h1] at hfail ⊢
      by_cases h2 : failing e.name = true
      · rw [if_pos h2] at hfail ⊢
        exact absurd (hfail : e.name :: _ = []) (List.cons_ne_nil _ _)
      · rw [if_neg h2] at hfail ⊢
        by_cases h3 : (dirHas (e.name ++ ".json") (removeName e.name dir)
            && failing (e.name ++ ".json")) = true
        · rw [if_pos h3] at hfail ⊢
          exact absurd (hfail : (e.name ++ ".json") :: _ = [])
            (List.cons_ne_nil _ _)
        · rw [if_neg h3] at hfail ⊢
          rcases hmem e (List.mem_cons_self e rest) with ⟨hedir, hepay⟩
          rw [List.map_cons, List.nodup_cons] at hent
          rcases hent with ⟨henot, hent'⟩
          have h4 : payloadTotal dir
              = payloadTotal (removeName e.name dir) + e.size :=
            payloadTotal_removeName dir e hedir hepay hnd
          have h5 : payloadTotal (removeName (e.name ++ ".json")
                (removeName e.name dir))
              = payloadTotal (removeName e.name dir) :=
            payloadTotal_removeName_sidecar _ _ (strEndsWith_append_json e.name)
          have hsub2 : (removeName (e.name ++ ".json")
              (removeName e.name dir)).Sublist dir :=
            (removeName_sublist _ _).trans (removeName_sublist _ _)
          have hnd'' : ((removeName (e.name ++ ".json")
              (removeName e.name dir)).map FsFile.name).Nodup :=
            hnd.sublist (hsub2.map FsFile.name)
          have hmem'' : ∀ x ∈ rest,
              x ∈ removeName (e.name ++ ".json") (removeName e.name dir) ∧
              strEndsWith x.name ".json" = false := by
            intro x hx
            rcases hmem x (List.mem_cons_of_mem e hx) with ⟨hxdir, hxpay⟩
            have hxe : x.name ≠ e.name := by
              intro hc
              exact henot (hc ▸ List.mem_map_of_mem FsFile.name hx)
            have hxm : x.name ≠ e.name ++ ".json" := by
              intro hc
              rw [hc] at hxpay
              rw [strEndsWith_append_json] at hxpay
              cases hxpay
            exact ⟨List.mem_filter.mpr
              ⟨List.mem_filter.mpr ⟨hxdir, by simpa using hxe⟩,
               by simpa using hxm⟩, hxpay⟩
          have hcur'' : current - e.size
              = payloadTotal (removeName (e.name ++ ".json")
                  (removeName e.name dir)) := by
            omega
          have hrem'' : payloadTotal (removeName (e.name ++ ".json")
                (removeName e.name dir))
              - ((rest.map FsFile.size).sum) ≤ maxC := by
            rw [List.map_cons, List.sum_cons] at hrem
            omega
          have hfail'' : (evictLoop maxC failing rest (current - e.size)
              (removeName (e.name ++ ".json")
                (removeName e.name dir))).failures = [] := hfail
          have hih := ih (current - e.size)
            (removeName (e.name ++ ".json") (removeName e.name dir))
            hnd'' hmem'' hent' hcur'' hrem'' hfail''
          refine ⟨hih.1, ?_⟩
          intro x hx
          rcases List.mem_cons.mp
            (hx : x ∈ e :: (evictLoop maxC failing rest (current - e.size)
              (removeName (e.name ++ ".json")
                (removeName e.name dir))).attempted) with hxe | hx'
          · subst hxe
            have hsubr : (evictLoop maxC failing rest (current - x.size)
                (removeName (x.name ++ ".json")
                  (removeName x.name dir))).dir.Sublist
                (removeName (x.name ++ ".json") (removeName x.name dir)) :=
              (evictLoop_structural maxC failing rest (current - x.size)
                (removeName (x.name ++ ".json") (removeName x.name dir))).2
            have hnames := (hsubr.map FsFile.name).subset
            constructor
            · intro hc
              have hc2 := hnames hc
              have hne : x.name ∉ ((removeName (x.name ++ ".json")
                  (removeName x.name dir)).map FsFile.name) := by
                intro hm
                rcases List.mem_map.mp hm with ⟨f, hf, hfn⟩
                have hf2 := (removeName_sublist (x.name ++ ".json")
                  (removeName x.name dir)).subset hf
                have hf3 : f.name ∈ (removeName x.name dir).map FsFile.name :=
                  List.mem_map_of_mem FsFile.name hf2
                rw [hfn] at hf3
                exact not_mem_names_removeName x.name dir hf3
              exact hne hc2
            · intro hc
              exact not_mem_names_removeName (x.name ++ ".json")
                (removeName x.name dir) (hnames hc)
          · exact hih.2 x hx'

/-- C2: an eviction pass sums the sizes of exactly the non-sidecar files;
if and only if that sum exceeds the ceiling it attempts deletions, and it
attempts them in ascending last-access (mtime) order — the attempted
entries are a prefix of the mtime-sorted candidate list; each successfully
deleted entry is removed together with its metadata sidecar; and when no
delete fails the resulting payload total is at or below the ceiling. -/
theorem eviction_pass_contract :
    ∀ (maxC : Nat) (failing : String → Bool) (dir : List FsFile),
      (dir.map FsFile.name).Nodup →
      (payloadTotal dir ≤ maxC →
        enforceCacheLimit maxC failing dir = ⟨dir, [], []⟩) ∧
      (payloadTotal dir > maxC →
        (enforceCacheLimit maxC failing dir).attempted ≠ []) ∧
      (enforceCacheLimit maxC failing dir).attempted
        <+: sortByMtime (payloadFiles dir) ∧
      (enforceCacheLimit maxC failing dir).attempted.Pairwise
        (fun a b => a.mtime ≤ b.mtime) ∧
      ((enforceCacheLimit maxC failing dir).failures = [] →
        payloadTotal (enforceCacheLimit maxC failing dir).dir ≤ maxC ∧
        ∀ e ∈ (enforceCacheLimit maxC failing dir).attempted,
          e.name ∉ (enforceCacheLimit maxC failing dir).dir.map FsFile.name ∧
          (e.name ++ ".json")
            ∉ (enforceCacheLimit maxC failing dir).dir.map FsFile.name) := by
  intro maxC failing dir hnd
  by_cases hle : payloadTotal dir ≤ maxC
  · have heq : enforceCacheLimit maxC failing dir = ⟨dir, [], []⟩ := by
      rw [enforceCacheLimit]
      exact if_pos hle
    rw [heq]
    refine ⟨fun _ => rfl, fun hgt => absurd hle (by omega), List.nil_prefix,
      List.Pairwise.nil, fun _ => ⟨hle, ?_⟩⟩
    intro x hx
    exact absurd (hx : x ∈ ([] : List FsFile)) (by simp)
  · have heq : enforceCacheLimit maxC failing dir
        = evictLoop maxC failing (sortByMtime (payloadFiles dir))
            (payloadTotal dir) dir := by
      rw [enforceCacheLimit]
      exact if_neg hle
    have hmemS : ∀ e ∈ sortByMtime (payloadFiles dir),
        e ∈ dir ∧ strEndsWith e.name ".json" = false := by
      intro e he
      have hpf : e ∈ payloadFiles dir :=
        (sortByMtime_perm (payloadFiles dir)).mem_iff.mp he
      rcases List.mem_filter.mp hpf with ⟨h1, h2⟩
      exact ⟨h1, by simpa using h2⟩
    have hndS : ((sortByMtime (payloadFiles dir)).map FsFile.name).Nodup := by
      have hperm : ((sortByMtime (payloadFiles dir)).map FsFile.name).Perm
          ((payloadFiles dir).map FsFile.name) :=
        (sortByMtime_perm (payloadFiles dir)).map FsFile.name
      have hpf : ((payloadFiles dir).map FsFile.name).Nodup :=
        hnd.sublist ((List.filter_sublist dir).map FsFile.name)
      exact hperm.nodup_iff.mpr hpf
    have hsum : ((sortByMtime (payloadFiles dir)).map FsFile.size).sum
        = payloadTotal dir :=
      ((sortByMtime_perm (payloadFiles dir)).map FsFile.size).sum_eq
    have hnf := evictLoop_no_failures maxC failing
      (sortByMtime (payloadFiles dir)) (payloadTotal dir) dir hnd hmemS hndS
      rfl (by omega)
    have hstruct := evictLoop_structural maxC failing
      (sortByMtime (payloadFiles dir)) (payloadTotal dir) dir
    rw [heq]
    refine ⟨fun h => absurd h hle, fun _ => ?_, hstruct.1,
      (sortByMtime_sorted (payloadFiles dir)).sublist hstruct.1.sublist,
      hnf⟩
    have hpfne : payloadFiles dir ≠ [] := by
      intro hc
      have : payloadTotal dir = 0 := by rw [payloadTotal, hc]; rfl
      omega
    have hsne : sortByMtime (payloadFiles dir) ≠ [] := by
      intro hc
      have hp := sortByMtime_perm (payloadFiles dir)
      rw [hc] at hp
      exact hpfne (List.length_eq_zero.mp (by simpa using hp.length_eq.symm))
    rcases hs : sortByMtime (payloadFiles dir) with _ | ⟨h0, t0⟩
    · exact absurd hs hsne
    · exact evictLoop_attempted_ne_nil maxC failing h0 t0 (payloadTotal dir)
        dir hle

/-- Witness: a 1100-byte cache (metadata sidecars not counted) against a
700-byte ceiling deletes the oldest payload `b.png` together with its
sidecar and ends at 600 bytes, at the ceiling or below. -/
theorem eviction_pass_witness :
    (enforceCacheLimit 700 (fun _ => false)
        [⟨"a.png", 600, 10⟩, ⟨"a.png.json", 5, 11⟩,
         ⟨"b.png", 500, 5⟩, ⟨"b.png.json", 5, 6⟩]).attempted ≠ [] ∧
    payloadTotal (enforceCacheLimit 700 (fun _ => false)
        [⟨"a.png", 600, 10⟩, ⟨"a.png.json", 5, 11⟩,
         ⟨"b.png", 500, 5⟩, ⟨"b.png.json", 5, 6⟩]).dir ≤ 700 ∧
    "b.png" ∉ (enforceCacheLimit 700 (fun _ => false)
        [⟨"a.png", 600, 10⟩, ⟨"a.png.json", 5, 11⟩,
         ⟨"b.png", 500, 5⟩, ⟨"b.png.json", 5, 6⟩]).dir.map FsFile.name ∧
    ("b.png" ++ ".json") ∉ (enforceCacheLimit 700 (fun _ => false)
        [⟨"a.png", 600, 10⟩, ⟨"a.png.json", 5, 11⟩,
         ⟨"b.png", 500, 5⟩, ⟨"b.png.json", 5, 6⟩]).dir.map FsFile.name := by
  have h := eviction_pass_contract 700 (fun _ => false)
    [⟨"a.png", 600, 10⟩, ⟨"a.png.json", 5, 11⟩,
     ⟨"b.png", 500, 5⟩, ⟨"b.png.json", 5, 6⟩] (by decide)
  have h5 := h.2.2.2.2 (by decide)
  exact ⟨h.2.1 (by decide), h5.1,
    (h5.2 ⟨"b.png", 500, 5⟩ (by decide)).1,
    (h5.2 ⟨"b.png", 500, 5⟩ (by decide)).2⟩

/-- C9: the eviction candidate set is exactly the directory entries whose
names do not end in `.json`; a staging file `<key>.tmp` never ends in
`.json`, so it is a candidate whose size counts toward the eviction total,
and a concrete eviction pass deletes an in-flight staging file. -/
theorem staging_files_are_eviction_candidates :
    (∀ k : String, strEndsWith (k ++ ".tmp") ".json" = false) ∧
    (∀ (dir : List FsFile) (f : FsFile),
      f ∈ payloadFiles dir ↔
        f ∈ dir ∧ strEndsWith f.name ".json" = false) ∧
    (∀ (dir : List FsFile) (f : FsFile), f ∈ dir →
      strEndsWith f.name ".json" = false → f.size ≤ payloadTotal dir) ∧
    enforceCacheLimit 700 (fun _ => false)
        [⟨"a.png", 600, 10⟩, ⟨"b.jpg.tmp", 500, 5⟩]
      = ⟨[⟨"a.png", 600, 10⟩], [⟨"b.jpg.tmp", 500, 5⟩], []⟩ := by
  refine ⟨?_, ?_, ?_, by decide⟩
  · intro k
    rw [strEndsWith, String.data_append, List.reverse_append]
    rfl
  · intro dir f
    constructor
    · intro h
      rcases List.mem_filter.mp h with ⟨h1, h2⟩
      exact ⟨h1, by simpa using h2⟩
    · intro ⟨h1, h2⟩
      exact List.mem_filter.mpr ⟨h1, by simpa using h2⟩
  · intro dir f hf hpay
    have hmem : f ∈ payloadFiles dir :=
      List.mem_filter.mpr ⟨hf, by simpa using hpay⟩
    exact List.single_le_sum (fun x _ => Nat.zero_le x) f.size
      (List.mem_map_of_mem FsFile.size hmem)

/-- Witness: the staging name `k.png.tmp` is not a sidecar, and a concrete
staging file's 500 bytes count toward (and stay below) the payload total. -/
theorem staging_candidates_witness :
    strEndsWith ("k.png" ++ ".tmp") ".json" = false ∧
    (⟨"b.jpg.tmp", 500, 5⟩ : FsFile).size
      ≤ payloadTotal [⟨"a.png", 600, 10⟩, ⟨"b.jpg.tmp", 500, 5⟩] := by
  exact ⟨staging_files_are_eviction_candidates.1 "k.png",
    staging_files_are_eviction_candidates.2.2.1
      [⟨"a.png", 600, 10⟩, ⟨"b.jpg.tmp", 500, 5⟩] ⟨"b.jpg.tmp", 500, 5⟩
      (by decide) (by decide)⟩

/-- A hex-rendered word has exactly 8 digits. -/
theorem wordHex_length (w : Nat) : (wordHex w).length = 8 := by
  simp [wordHex, String.length]

/-- The hex digest has exactly 64 characters, whatever the input. -/
theorem sha256Hex_length (s : String) : (sha256Hex s).length = 64 := by
  rw [sha256Hex]
  simp [String.length_append, wordHex_length]

set_option maxRecDepth 100000 in
/-- FIPS 180-4 test vector: the digest of the empty string. -/
theorem sha256Hex_empty_vector :
    sha256Hex ""
      = "e3b0c44298fc1c149afbf4c8996fb92427ae41e4649b934ca495991b7852b855" := by
  decide

set_option maxRecDepth 100000 in
/-- FIPS 180-4 test vector: the digest of `abc`. -/
theorem sha256Hex_abc_vector :
    sha256Hex "abc"
      = "ba7816bf8f01cfea414140de5dae2223b00361a396177a9cb410ff61f20015ad" := by
  decide

/-- C7: the cache key is a deterministic pure function of the normalized
path-plus-query string: the 64-hex-character SHA-256 digest of the string
followed by the original file extension (possibly empty), and the key is
the on-disk payload filename, so the filename starts with the fixed-length
digest and ends with the original extension. -/
theorem cache_key_structure :
    ∀ p : String,
      cacheKeyFromPath p = sha256Hex p ++ extnameOf p ∧
      (sha256Hex p).length = 64 ∧
      (cacheKeyFromPath p).length = 64 + (extnameOf p).length ∧
      strStartsWith (cacheKeyFromPath p) (sha256Hex p) = true ∧
      strEndsWith (cacheKeyFromPath p) (extnameOf p) = true := by
  intro p
  refine ⟨rfl, sha256Hex_length p, ?_, ?_, ?_⟩
  · rw [cacheKeyFromPath, String.length_append, sha256Hex_length]
  · rw [cacheKeyFromPath, strStartsWith, String.data_append,
      List.isPrefixOf_iff_prefix]
    exact List.prefix_append _ _
  · rw [cacheKeyFromPath, strEndsWith, String.data_append,
      List.reverse_append, List.isPrefixOf_iff_prefix]
    exact List.prefix_append _ _

set_option maxRecDepth 100000 in
/-- The spec's scenario path: the derived key for `/abc123.png` is the
SHA-256 digest of the path with the `.png` extension preserved (digest
cross-checked against an independent SHA-256 implementation). -/
theorem cacheKey_scenario_vector :
    cacheKeyFromPath "/abc123.png"
      = "517cfca813468c02ef2c1cb4883fabb239249bbf15eddf0b87fa0a669816b4cc.png" := by
  decide

end FineImgur
